import Mathlib

/-!
Verification of the PhilCard server (`server.js`, an Express application)
against its natural-language specification.

The server is CRUD over two JSON files: an array of links and a singleton
config.  Each route handler below is translated into a pure Lean function:
the JSON files become explicit `List Link` / `Config` values threaded
through the handler, the current time becomes an explicit parameter, and
the external Node facilities the handlers call (bcryptjs `compare`,
`Buffer` base64) become explicit function parameters of the definitions
that use them.  JavaScript truthiness of the destructured string fields
(`if (!title || !url)`, `subtitle || ''`, `...(name && { name })`) is
modelled by `truthy` / `jsOrDefault` on `Option String`, where `none` is
an absent field and `some ""` a present-but-empty one (both falsy).
-/

namespace PhilCard

/-- JavaScript truthiness of an optional string field: absent (`undefined`)
and the empty string are falsy, every other string is truthy. -/
def truthy : Option String → Bool
  | none => false
  | some s => !(s = "")

/-- The JavaScript idiom `v || d` on an optional string field: the default
`d` is used when the field is absent or falsy (empty). -/
def jsOrDefault (v : Option String) (d : String) : String :=
  match v with
  | none => d
  | some s => if s = "" then d else s

/-- A stored link object.  `POST /api/links` creates links with exactly the
keys `id, title, url, subtitle, iconName, iconType, createdAt`; the
`updatedAt` key is only added by `PUT /api/links/:id`, so the two
timestamp keys are optional. -/
structure Link where
  id : String
  title : String
  url : String
  subtitle : String
  iconName : String
  iconType : String
  createdAt : Option String
  updatedAt : Option String
deriving DecidableEq, Repr, Inhabited

/-- The `profile` object of the singleton config: `avatarUrl` is only added
once an avatar has been uploaded, so it is optional. -/
structure Profile where
  name : String
  description : String
  avatar : String
  avatarUrl : Option String
deriving DecidableEq, Repr, Inhabited

/-- The singleton config object `{profile, adminPasswordHash, settings}`.
`settings` is absent until `PUT /api/settings` or a background upload first
creates it; its keys are modelled as an association list since the server
never inspects them beyond `backgroundImageUrl`. -/
structure Config where
  profile : Profile
  adminPasswordHash : String
  settings : Option (List (String × String))
deriving DecidableEq, Repr, Inhabited

/-- The JSON body of `POST /api/links` and `PUT /api/links/:id` as the
handlers destructure it: `{ title, url, subtitle, iconName, iconType }`,
every field possibly absent.  (A reorder body `{ linkIds: [...] }` has none
of these five keys.) -/
structure LinkBody where
  title : Option String
  url : Option String
  subtitle : Option String
  iconName : Option String
  iconType : Option String
deriving DecidableEq, Repr, Inhabited

/-- The body the browser client sends to `/api/links/reorder`
(`{ linkIds: [...] }`), seen through the link handlers' destructuring:
none of `title, url, subtitle, iconName, iconType` is present. -/
def reorderBody : LinkBody :=
  { title := none, url := none, subtitle := none, iconName := none,
    iconType := none }

/-- Outcome of a link-route handler: the HTTP status, the stored link array
after the request, and the link returned in the response body, if any. -/
structure LinksOutcome where
  status : Nat
  links : List Link
  body? : Option Link
deriving DecidableEq, Repr

/-- Translation of `Array.prototype.findIndex` as the link handlers use it:
index of the first element satisfying the predicate. -/
def findIndexJs (p : Link → Bool) : List Link → Option Nat
  | [] => none
  | l :: rest => if p l then some 0 else (findIndexJs p rest).map (· + 1)

/-- Handler of `POST /api/links` (server.js lines 244-276).  `now` is
`Date.now()` in milliseconds and `nowIso` the ISO rendering
`new Date().toISOString()` of the same moment. -/
def postLinks (now : Nat) (nowIso : String) (body : LinkBody)
    (links : List Link) : LinksOutcome :=
  if truthy body.title && truthy body.url then
    let newLink : Link :=
      { id := toString now
        title := jsOrDefault body.title ""
        url := jsOrDefault body.url ""
        subtitle := jsOrDefault body.subtitle ""
        iconName := jsOrDefault body.iconName "link"
        iconType := jsOrDefault body.iconType "simple"
        createdAt := some nowIso
        updatedAt := none }
    { status := 201, links := links ++ [newLink], body? := some newLink }
  else
    { status := 400, links := links, body? := none }

/-- Handler of `PUT /api/links/:id` (server.js lines 279-315): reject 400
when title or url is falsy, 404 when no link has the given id, otherwise
replace the first matching link by the spread
`{...links[linkIndex], title, url, subtitle: subtitle || '', ...}`. -/
def putLink (id : String) (nowIso : String) (body : LinkBody)
    (links : List Link) : LinksOutcome :=
  if truthy body.title && truthy body.url then
    match findIndexJs (fun l => l.id = id) links with
    | none => { status := 404, links := links, body? := none }
    | some i =>
      let old := links.getD i default
      let updated : Link :=
        { old with
          title := jsOrDefault body.title ""
          url := jsOrDefault body.url ""
          subtitle := jsOrDefault body.subtitle ""
          iconName := jsOrDefault body.iconName "link"
          iconType := jsOrDefault body.iconType "simple"
          updatedAt := some nowIso }
      { status := 200, links := links.set i updated, body? := some updated }
  else
    { status := 400, links := links, body? := none }

/-- Handler of `DELETE /api/links/:id` (server.js lines 318-341): 404 when
no link has the given id, otherwise `splice(linkIndex, 1)` the first match
out of the array and return it. -/
def deleteLink (id : String) (links : List Link) : LinksOutcome :=
  match findIndexJs (fun l => l.id = id) links with
  | none => { status := 404, links := links, body? := none }
  | some i =>
    { status := 200, links := links.eraseIdx i,
      body? := some (links.getD i default) }

/-- Handler of `PUT /api/profile` (server.js lines 344-374): rewrite only
`config.profile`, spreading the old profile and then each of
`name, description, avatar` only when truthy
(`...(name && { name })` etc.); returns the rewritten config. -/
def putProfile (body : Option String × Option String × Option String)
    (cfg : Config) : Config :=
  let p := cfg.profile
  { cfg with
    profile :=
      { p with
        name := if truthy body.1 then jsOrDefault body.1 "" else p.name
        description :=
          if truthy body.2.1 then jsOrDefault body.2.1 "" else p.description
        avatar :=
          if truthy body.2.2 then jsOrDefault body.2.2 "" else p.avatar } }

/-- The response body of the public `GET /api/config` (server.js lines
193-207): only `{ profile: config.profile }` is returned. -/
structure PublicConfig where
  profile : Profile
deriving DecidableEq, Repr

/-- Handler of `GET /api/config`: project the stored config to its public
part. -/
def getConfig (cfg : Config) : PublicConfig :=
  { profile := cfg.profile }

/-- Outcome of `POST /api/auth`: HTTP status and the issued token, if any. -/
structure AuthOutcome where
  status : Nat
  token? : Option String
deriving DecidableEq, Repr

/-- Handler of `POST /api/auth` (server.js lines 210-241).  `compare` is the
external `bcrypt.compare` and `b64enc` the external
`Buffer.from(s).toString('base64')`; on success the token is
`b64enc (password ++ "philcard")`.  A missing `adminPasswordHash` key is
modelled as the falsy empty string, giving the 500 branch. -/
def postAuth (compare : String → String → Bool) (b64enc : String → String)
    (cfg : Config) (password : Option String) : AuthOutcome :=
  if truthy password then
    let p := jsOrDefault password ""
    if cfg.adminPasswordHash = "" then { status := 500, token? := none }
    else if compare p cfg.adminPasswordHash then
      { status := 200, token? := some (b64enc (p ++ "philcard")) }
    else { status := 401, token? := none }
  else { status := 400, token? := none }

/-- The longest part of `s` strictly before the first occurrence of `sep`,
or all of `s` when `sep` never occurs: this is element 0 of the JavaScript
`s.split(sep)` for non-empty `sep`. -/
def beforeFirst (sep : List Char) : List Char → List Char
  | [] => []
  | c :: rest =>
    if sep.isPrefixOf (c :: rest) then [] else c :: beforeFirst sep rest

/-- The password `authenticateAdmin` recovers from a decoded token:
`decoded.split('philcard')` destructured to its first element. -/
def extractPassword (decoded : String) : String :=
  ⟨beforeFirst "philcard".data decoded.data⟩

/-- The token `authHeader.substring(7)`, guarded by `authHeader.startsWith('Bearer ')`:
the raw token carried by an Authorization header. -/
def stripBearer (h : String) : Option String :=
  if "Bearer ".data.isPrefixOf h.data then some ⟨h.data.drop 7⟩ else none

/-- Result of the `authenticateAdmin` middleware: the request proceeds to
the handler, or is answered 401, or 500 on a broken config. -/
inductive AuthCheck where
  | ok
  | unauthorized
  | serverError
deriving DecidableEq, Repr

/-- The `authenticateAdmin` middleware (server.js lines 148-178): require a
`Bearer` header, base64-decode the token with the external `b64dec`, take
the part before the first `'philcard'`, and `bcrypt.compare` it against
`config.adminPasswordHash`. -/
def authenticateAdmin (compare : String → String → Bool)
    (b64dec : String → String) (cfg : Config) (authHeader : Option String) :
    AuthCheck :=
  match authHeader with
  | none => .unauthorized
  | some h =>
    match stripBearer h with
    | none => .unauthorized
    | some token =>
      let password := extractPassword (b64dec token)
      if cfg.adminPasswordHash = "" then .serverError
      else if compare password cfg.adminPasswordHash then .ok
      else .unauthorized

/-- The standard base64 alphabet. -/
def base64Table : List Char :=
  "ABCDEFGHIJKLMNOPQRSTUVWXYZabcdefghijklmnopqrstuvwxyz0123456789+/".data

/-- base64 of a byte list, three bytes to four output characters, with
`'='` padding. -/
def base64Bytes : List Nat → List Char
  | [] => []
  | [b1] =>
    [base64Table.getD (b1 / 4) '?', base64Table.getD (b1 % 4 * 16) '?',
     '=', '=']
  | [b1, b2] =>
    [base64Table.getD (b1 / 4) '?',
     base64Table.getD (b1 % 4 * 16 + b2 / 16) '?',
     base64Table.getD (b2 % 16 * 4) '?', '=']
  | b1 :: b2 :: b3 :: rest =>
    base64Table.getD (b1 / 4) '?' ::
    base64Table.getD (b1 % 4 * 16 + b2 / 16) '?' ::
    base64Table.getD (b2 % 16 * 4 + b3 / 64) '?' ::
    base64Table.getD (b3 % 64) '?' :: base64Bytes rest

/-- Rendering `Buffer.from(s).toString('base64')` on code points; on ASCII strings,
where code points and UTF-8 bytes coincide, this is exactly Node's
base64 rendering. -/
def base64Encode (s : String) : String :=
  ⟨base64Bytes (s.data.map Char.toNat)⟩

/-- The targets a `PUT` request can reach among the routes server.js
registers: `/api/links/:id`, `/api/profile`, `/api/settings`, in that
order; any other PUT path matches no route. -/
inductive PutTarget where
  | updateLink (id : String)
  | updateProfile
  | updateSettings
  | noRoute
deriving DecidableEq, Repr

/-- Split a character list at every `'/'`, keeping empty fields, as
`path.split('/')` does. -/
def splitSlash : List Char → List String
  | [] => [""]
  | c :: rest =>
    if c = '/' then "" :: splitSlash rest
    else
      match splitSlash rest with
      | [] => [⟨[c]⟩]
      | s :: ss => ⟨c :: s.data⟩ :: ss

/-- The non-empty segments of a URL path. -/
def pathSegments (p : String) : List String :=
  (splitSlash p.data).filter (fun s => !(s = ""))

/-- Express route matching for the PUT routes server.js registers: a
`:id` pattern segment matches exactly one non-empty path segment. -/
def matchPutRoute (path : String) : PutTarget :=
  match pathSegments path with
  | ["api", "links", id] => .updateLink id
  | ["api", "profile"] => .updateProfile
  | ["api", "settings"] => .updateSettings
  | _ => .noRoute

/-! ### Helper lemmas -/

theorem findIndexJs_eq_none_iff (p : Link → Bool) (links : List Link) :
    findIndexJs p links = none ↔ ∀ l ∈ links, p l = false := by
  induction links with
  | nil => simp [findIndexJs]
  | cons a rest ih =>
    by_cases h : p a = true
    · simp [findIndexJs, h]
    · have h' : p a = false := by simpa using h
      simp [findIndexJs, h', ih, Option.map_eq_none']

theorem findIndexJs_append_first (p : Link → Bool) (u : List Link) (d : Link)
    (v : List Link) (hu : ∀ l ∈ u, p l = false) (hd : p d = true) :
    findIndexJs p (u ++ d :: v) = some u.length := by
  induction u with
  | nil => simp [findIndexJs, hd]
  | cons a rest ih =>
    have ha : p a = false := hu a (by simp)
    have ih' := ih (fun l hl => hu l (by simp [hl]))
    simp [findIndexJs, ha, ih']

theorem getD_append_len (u : List Link) (d : Link) (v : List Link) :
    (u ++ d :: v).getD u.length default = d := by
  induction u with
  | nil => rfl
  | cons a rest ih => simpa using ih

theorem set_append_len (u : List Link) (d x : Link) (v : List Link) :
    (u ++ d :: v).set u.length x = u ++ x :: v := by
  induction u with
  | nil => rfl
  | cons a rest ih => simp [List.set, ih]

theorem eraseIdx_append_len (u : List Link) (d : Link) (v : List Link) :
    (u ++ d :: v).eraseIdx u.length = u ++ v := by
  induction u with
  | nil => rfl
  | cons a rest ih => simp [List.eraseIdx, ih]

/-- A separator word is border-free when no non-trivial proper initial
segment of it is also a final segment; `'philcard'` is such a word, which
is what makes the token decoding in `authenticateAdmin` unambiguous. -/
def borderFree (sep : List Char) : Prop :=
  ∀ k, k < sep.length → 0 < k → sep.take k ≠ sep.drop (sep.length - k)

theorem philcard_borderFree : borderFree "philcard".data := by
  unfold borderFree
  decide

theorem isPrefixOf_true_iff (l₁ l₂ : List Char) :
    l₁.isPrefixOf l₂ = true ↔ l₁ <+: l₂ :=
  List.isPrefixOf_iff_prefix

theorem beforeFirst_append_self (sep : List Char) (hb : borderFree sep)
    (hne : sep ≠ []) :
    ∀ p : List Char, ¬ (sep <:+: p) → beforeFirst sep (p ++ sep) = p := by
  intro p
  induction p with
  | nil =>
    intro _
    match sep, hne with
    | c :: rest, _ =>
      simp only [List.nil_append, beforeFirst]
      rw [if_pos ((isPrefixOf_true_iff _ _).mpr (List.prefix_refl _))]
  | cons c rest ih =>
    intro hp
    have hcons : (c :: rest) ++ sep = c :: (rest ++ sep) := rfl
    by_cases h : sep.isPrefixOf (c :: (rest ++ sep)) = true
    · exfalso
      have hpre : sep <+: (c :: rest) ++ sep :=
        (isPrefixOf_true_iff _ _).mp h
      rcases le_or_lt sep.length (c :: rest).length with hle | hlt
      · have : sep <+: c :: rest :=
          List.prefix_of_prefix_length_le hpre (List.prefix_append _ _) hle
        exact hp this.isInfix
      · have hPp : (c :: rest) <+: sep :=
          List.prefix_of_prefix_length_le (List.prefix_append _ _) hpre
            (le_of_lt hlt)
        set P : List Char := c :: rest with hP
        set t : List Char := sep.drop P.length with ht
        have hsep : sep = P ++ t := by
          have h1 : P = sep.take P.length := List.prefix_iff_eq_take.mp hPp
          calc sep = sep.take P.length ++ sep.drop P.length :=
                (List.take_append_drop _ _).symm
            _ = P ++ t := by rw [← h1, ← ht]
        have htpre : t <+: sep := by
          have : P ++ t <+: P ++ sep := by rw [← hsep]; exact hpre
          exact (List.prefix_append_right_inj P).mp this
        have hlen : t.length = sep.length - P.length := by
          rw [ht]; simp
        have hk1 : 0 < t.length := by
          have := congrArg List.length hsep
          simp at this
          omega
        have hk2 : t.length < sep.length := by
          have := congrArg List.length hsep
          have hPlen : 0 < P.length := by rw [hP]; simp
          simp at this
          omega
        have htake : sep.take t.length = t :=
          (List.prefix_iff_eq_take.mp htpre).symm
        have hdrop : sep.drop (sep.length - t.length) = t := by
          have : sep.length - t.length = P.length := by
            have := congrArg List.length hsep
            simp at this
            omega
          rw [this, ← ht]
        exact hb t.length hk2 hk1 (htake.trans hdrop.symm)
    · have hrest : ¬ (sep <:+: rest) := by
        intro hinf
        exact hp (List.infix_cons_iff.mpr (Or.inr hinf))
      rw [hcons]
      simp only [beforeFirst, h, if_false, Bool.false_eq_true]
      rw [ih hrest]

theorem beforeFirst_of_contains (sep : List Char) (hne : sep ≠ []) :
    ∀ (p w : List Char), sep <:+: p →
      (beforeFirst sep (p ++ w)) <+: p ∧
      (beforeFirst sep (p ++ w)).length < p.length := by
  intro p
  induction p with
  | nil =>
    intro w hinf
    exact absurd (List.infix_nil.mp hinf) hne
  | cons c rest ih =>
    intro w hinf
    have hcons : (c :: rest) ++ w = c :: (rest ++ w) := rfl
    rw [hcons]
    by_cases h : sep.isPrefixOf (c :: (rest ++ w)) = true
    · simp only [beforeFirst, h, if_true]
      exact ⟨by simp, by simp⟩
    · rcases List.infix_cons_iff.mp hinf with hpre | hrest
      · exfalso
        apply h
        apply (isPrefixOf_true_iff _ _).mpr
        calc sep <+: c :: rest := hpre
          _ <+: (c :: rest) ++ w := List.prefix_append _ _
      · simp only [beforeFirst, h, if_false, Bool.false_eq_true]
        obtain ⟨h1, h2⟩ := ih w hrest
        exact ⟨List.cons_prefix_cons.mpr ⟨rfl, h1⟩, by simpa using h2⟩

/-- Anatomy of a successful `POST /api/auth`: the password was non-empty,
a hash was stored, `bcrypt.compare` accepted the password, and the issued
token is the base64 of `password + 'philcard'`. -/
theorem postAuth_success (compare : String → String → Bool)
    (b64enc : String → String) (cfg : Config) (p tok : String)
    (h : postAuth compare b64enc cfg (some p) =
      { status := 200, token? := some tok }) :
    p ≠ "" ∧ cfg.adminPasswordHash ≠ "" ∧
      compare p cfg.adminPasswordHash = true ∧
      tok = b64enc (p ++ "philcard") := by
  by_cases hp : p = ""
  · simp [postAuth, truthy, hp] at h
  · by_cases hh : cfg.adminPasswordHash = ""
    · simp [postAuth, truthy, hp, hh] at h
    · by_cases hc : compare p cfg.adminPasswordHash = true
      · refine ⟨hp, hh, hc, ?_⟩
        simp [postAuth, truthy, hp, hh, hc, jsOrDefault] at h
        exact h.symm
      · simp [postAuth, truthy, hp, hh, hc, jsOrDefault] at h

/-! ### Claims -/

/-- C1: the browser client persists a drag-reorder by `PUT
/api/links/reorder` with body `{ linkIds: [...] }`, but the server
registers no such route: the request matches the generic `PUT
/api/links/:id` pattern with `id = "reorder"`, whose handler rejects the
body (it has no `title`/`url`) with status 400 and leaves the stored
array untouched — the reorder is never persisted. -/
theorem c1_reorder_put_rejected :
    matchPutRoute "/api/links/reorder" = PutTarget.updateLink "reorder" ∧
    ∀ (nowIso : String) (links : List Link),
      putLink "reorder" nowIso reorderBody links =
        { status := 400, links := links, body? := none } := by
  refine ⟨by decide, ?_⟩
  intro nowIso links
  rfl

/-- A `POST /api/links` body whose `title` key is present but empty. -/
def emptyTitleBody : LinkBody :=
  { title := some "", url := some "https://example.com", subtitle := none,
    iconName := none, iconType := none }

/-- C3 counterexample: a body with both `title` and `url` present (title
empty) is still rejected with 400, refuting "when both title and url are
present, no other validation rejects the request". -/
theorem c3_counterexample :
    emptyTitleBody.title ≠ none ∧ emptyTitleBody.url ≠ none ∧
    (postLinks 1700000000000 "2023-11-14T22:13:20.000Z" emptyTitleBody
      []).status = 400 := by
  decide

/-- C3 (amended): a body whose `title` or `url` is missing or empty is
rejected with 400 by both `POST /api/links` and `PUT /api/links/:id`,
leaving the array unchanged; when both are present and non-empty no other
validation rejects: POST answers 201, and PUT answers 404 exactly when no
stored link has the id and 200 otherwise. -/
theorem c3_title_url_validation (now : Nat) (nowIso id : String)
    (body : LinkBody) (links : List Link) :
    ((truthy body.title = false ∨ truthy body.url = false) →
       postLinks now nowIso body links =
         { status := 400, links := links, body? := none } ∧
       putLink id nowIso body links =
         { status := 400, links := links, body? := none })
    ∧ (truthy body.title = true → truthy body.url = true →
       (postLinks now nowIso body links).status = 201 ∧
       ((∀ l ∈ links, l.id ≠ id) →
         (putLink id nowIso body links).status = 404) ∧
       ((∃ l ∈ links, l.id = id) →
         (putLink id nowIso body links).status = 200)) := by
  constructor
  · intro h
    have hc : (truthy body.title && truthy body.url) = false := by
      rcases h with h | h <;> simp [h]
    exact ⟨by simp [postLinks, hc], by simp [putLink, hc]⟩
  · intro h1 h2
    have hc : (truthy body.title && truthy body.url) = true := by
      simp [h1, h2]
    refine ⟨by simp [postLinks, hc], ?_, ?_⟩
    · intro hnone
      have hfi : findIndexJs (fun l => decide (l.id = id)) links = none :=
        (findIndexJs_eq_none_iff _ _).mpr
          (fun l hl => by simpa using hnone l hl)
      simp [putLink, hc, hfi]
    · rintro ⟨l, hl, hid⟩
      have hnn : findIndexJs (fun l => decide (l.id = id)) links ≠ none := by
        intro hn
        have := (findIndexJs_eq_none_iff _ _).mp hn l hl
        simp [hid] at this
      obtain ⟨i, hi⟩ := Option.ne_none_iff_exists'.mp hnn
      simp [putLink, hc, hi]

/-- C3 witness: concrete instances of both halves of the amended claim. -/
theorem c3_title_url_validation_witness :
    (postLinks 5 "T" reorderBody []).status = 400 ∧
    (postLinks 5 "T" emptyTitleBody []).status = 400 ∧
    (postLinks 5 "T"
      { title := some "A", url := some "B", subtitle := none,
        iconName := none, iconType := none } []).status = 201 := by
  refine ⟨?_, ?_, ?_⟩
  · have h := (c3_title_url_validation 5 "T" "x" reorderBody []).1
      (Or.inl (by decide))
    rw [h.1]
  · have h := (c3_title_url_validation 5 "T" "x" emptyTitleBody []).1
      (Or.inl (by decide))
    rw [h.1]
  · exact ((c3_title_url_validation 5 "T" "x" _ []).2 (by decide)
      (by decide)).1

/-- A well-formed `POST /api/links` body with the optional fields
omitted. -/
def minimalBody : LinkBody :=
  { title := some "My link", url := some "https://example.com",
    subtitle := none, iconName := none, iconType := none }

/-- The link object `POST /api/links` builds when validation passes:
`newLink` of server.js lines 254-262. -/
def postCreatedLink (now : Nat) (nowIso : String) (body : LinkBody) : Link :=
  { id := toString now
    title := jsOrDefault body.title ""
    url := jsOrDefault body.url ""
    subtitle := jsOrDefault body.subtitle ""
    iconName := jsOrDefault body.iconName "link"
    iconType := jsOrDefault body.iconType "simple"
    createdAt := some nowIso
    updatedAt := none }

theorem postLinks_ok (now : Nat) (nowIso : String) (body : LinkBody)
    (links : List Link)
    (hc : (truthy body.title && truthy body.url) = true) :
    postLinks now nowIso body links =
      { status := 201, links := links ++ [postCreatedLink now nowIso body],
        body? := some (postCreatedLink now nowIso body) } := by
  simp [postLinks, hc, postCreatedLink]

/-- C4 counterexample: a successfully created link (status 201) carries no
`updatedAt` key, refuting "contains all the fields of the Link schema
{..., updatedAt}". -/
theorem c4_counterexample :
    (postLinks 1700000000000 "2023-11-14T22:13:20.000Z" minimalBody
      []).status = 201 ∧
    ((postLinks 1700000000000 "2023-11-14T22:13:20.000Z" minimalBody
      []).body?.map Link.updatedAt) = some none := by
  decide

/-- C4 (amended): every link created by a successful `POST /api/links` has
`id, title, url, subtitle, iconName, iconType, createdAt`, with subtitle
defaulting to the empty string, iconName to `'link'` and iconType to
`'simple'` when omitted — but no `updatedAt` key, which first appears when
the link is updated by PUT. -/
theorem c4_created_link_fields (now : Nat) (nowIso : String)
    (body : LinkBody) (links : List Link) (ht : truthy body.title = true)
    (hu : truthy body.url = true) :
    ∃ nl, (postLinks now nowIso body links).body? = some nl ∧
      (postLinks now nowIso body links).links = links ++ [nl] ∧
      nl.id = toString now ∧
      nl.title = jsOrDefault body.title "" ∧
      nl.url = jsOrDefault body.url "" ∧
      (body.subtitle = none → nl.subtitle = "") ∧
      (body.iconName = none → nl.iconName = "link") ∧
      (body.iconType = none → nl.iconType = "simple") ∧
      nl.createdAt = some nowIso ∧
      nl.updatedAt = none := by
  have hc : (truthy body.title && truthy body.url) = true := by
    simp [ht, hu]
  refine ⟨postCreatedLink now nowIso body, ?_, ?_, rfl, rfl, rfl,
    ?_, ?_, ?_, rfl, rfl⟩
  · rw [postLinks_ok now nowIso body links hc]
  · rw [postLinks_ok now nowIso body links hc]
  · intro h; simp [postCreatedLink, jsOrDefault, h]
  · intro h; simp [postCreatedLink, jsOrDefault, h]
  · intro h; simp [postCreatedLink, jsOrDefault, h]

/-- C4 witness: the created link of a concrete POST, via the theorem. -/
theorem c4_created_link_fields_witness :
    ((postLinks 7 "T" minimalBody []).body?.map Link.iconName) =
      some "link" := by
  obtain ⟨nl, h1, _, _, _, _, _, hicon, _, _, _⟩ :=
    c4_created_link_fields 7 "T" minimalBody [] (by decide) (by decide)
  rw [h1]
  simp [hicon rfl]

/-- C5: the id of a link created by `POST /api/links` is
`Date.now().toString()`, the decimal rendering of the millisecond
timestamp, and when not already in use it identifies the new link for
later id lookups: `findIndex` on the rewritten array locates it, and
`DELETE /api/links/:id` with that id removes exactly it, restoring the
previous array. -/
theorem c5_id_is_identity (now : Nat) (nowIso : String) (body : LinkBody)
    (links : List Link) (ht : truthy body.title = true)
    (hu : truthy body.url = true)
    (hfresh : ∀ l ∈ links, l.id ≠ toString now) :
    ∃ nl, (postLinks now nowIso body links).body? = some nl ∧
      nl.id = toString now ∧
      findIndexJs (fun l => decide (l.id = toString now))
        (postLinks now nowIso body links).links = some links.length ∧
      deleteLink (toString now) (postLinks now nowIso body links).links =
        { status := 200, links := links, body? := some nl } := by
  have hc : (truthy body.title && truthy body.url) = true := by
    simp [ht, hu]
  have hpost := postLinks_ok now nowIso body links hc
  have hfi : findIndexJs (fun l => decide (l.id = toString now))
      (links ++ postCreatedLink now nowIso body :: []) =
      some links.length := by
    apply findIndexJs_append_first
    · intro l hl
      simpa using hfresh l hl
    · simp [postCreatedLink]
  refine ⟨postCreatedLink now nowIso body, ?_, rfl, ?_, ?_⟩
  · rw [hpost]
  · rw [hpost]
    exact hfi
  · rw [hpost]
    show deleteLink (toString now)
      (links ++ postCreatedLink now nowIso body :: []) = _
    unfold deleteLink
    rw [hfi]
    have he := eraseIdx_append_len links (postCreatedLink now nowIso body) []
    have hg := getD_append_len links (postCreatedLink now nowIso body) []
    simp only [List.append_nil] at he
    simp [he, hg]

/-- C5 witness: a concrete create-then-delete round trip via the
theorem. -/
theorem c5_id_is_identity_witness :
    deleteLink "7" (postLinks 7 "T" minimalBody []).links =
      { status := 200, links := [],
        body? := (postLinks 7 "T" minimalBody []).body? } := by
  obtain ⟨nl, h1, _, _, h4⟩ :=
    c5_id_is_identity 7 "T" minimalBody [] (by decide) (by decide)
      (by intro l hl; simp at hl)
  rw [h1]
  exact h4

/-- A stored link with the given id and fixed remaining fields, used by
concrete witnesses. -/
def sampleLink (i : String) : Link :=
  { id := i, title := "t", url := "u", subtitle := "", iconName := "link",
    iconType := "simple", createdAt := none, updatedAt := none }

/-- C6: `DELETE /api/links/:id` removes exactly the first link whose id
matches, leaving every other link present in its original relative order,
and answers 404 with the array unchanged when no link matches. -/
theorem c6_delete_first_match (id : String) (links : List Link) :
    ((∀ l ∈ links, l.id ≠ id) →
      deleteLink id links = { status := 404, links := links, body? := none })
    ∧ (∀ u d v, links = u ++ d :: v → d.id = id → (∀ l ∈ u, l.id ≠ id) →
      deleteLink id links =
        { status := 200, links := u ++ v, body? := some d }) := by
  constructor
  · intro h
    have hfi : findIndexJs (fun l => decide (l.id = id)) links = none :=
      (findIndexJs_eq_none_iff _ _).mpr (fun l hl => by simpa using h l hl)
    simp [deleteLink, hfi]
  · intro u d v hlinks hd hu
    subst hlinks
    have hfi : findIndexJs (fun l => decide (l.id = id)) (u ++ d :: v) =
        some u.length :=
      findIndexJs_append_first _ u d v
        (fun l hl => by simpa using hu l hl) (by simp [hd])
    simp only [deleteLink, hfi]
    rw [eraseIdx_append_len u d v, getD_append_len u d v]

/-- C6 witness: deleting `"2"` from a three-link store removes exactly the
middle link. -/
theorem c6_delete_first_match_witness :
    deleteLink "2" ([sampleLink "1"] ++ sampleLink "2" :: [sampleLink "3"]) =
      { status := 200, links := [sampleLink "1"] ++ [sampleLink "3"],
        body? := some (sampleLink "2") } := by
  exact (c6_delete_first_match "2"
      ([sampleLink "1"] ++ sampleLink "2" :: [sampleLink "3"])).2
    [sampleLink "1"] (sampleLink "2") [sampleLink "3"] rfl rfl (by decide)

/-- C7: `PUT /api/links/:id` on an existing link keeps that link's `id` and
`createdAt`, replaces the five payload fields (with the usual defaults for
omitted optional ones), sets `updatedAt`, and leaves every other link
unchanged and in place. -/
theorem c7_put_updates_in_place (id nowIso : String) (body : LinkBody)
    (u : List Link) (d : Link) (v : List Link) (hd : d.id = id)
    (hu : ∀ l ∈ u, l.id ≠ id) (ht : truthy body.title = true)
    (hw : truthy body.url = true) :
    ∃ upd, putLink id nowIso body (u ++ d :: v) =
        { status := 200, links := u ++ upd :: v, body? := some upd } ∧
      upd.id = d.id ∧ upd.createdAt = d.createdAt ∧
      upd.title = jsOrDefault body.title "" ∧
      upd.url = jsOrDefault body.url "" ∧
      upd.subtitle = jsOrDefault body.subtitle "" ∧
      upd.iconName = jsOrDefault body.iconName "link" ∧
      upd.iconType = jsOrDefault body.iconType "simple" ∧
      upd.updatedAt = some nowIso := by
  have hc : (truthy body.title && truthy body.url) = true := by
    simp [ht, hw]
  have hfi : findIndexJs (fun l => decide (l.id = id)) (u ++ d :: v) =
      some u.length :=
    findIndexJs_append_first _ u d v
      (fun l hl => by simpa using hu l hl) (by simp [hd])
  refine ⟨{ d with
            title := jsOrDefault body.title ""
            url := jsOrDefault body.url ""
            subtitle := jsOrDefault body.subtitle ""
            iconName := jsOrDefault body.iconName "link"
            iconType := jsOrDefault body.iconType "simple"
            updatedAt := some nowIso },
    ?_, rfl, rfl, rfl, rfl, rfl, rfl, rfl, rfl⟩
  simp only [putLink, hc, if_true, hfi]
  rw [getD_append_len u d v, set_append_len u d _ v]

/-- C7 witness: updating the second of two links in place. -/
theorem c7_put_updates_in_place_witness :
    (putLink "2" "T2" minimalBody
      ([sampleLink "1"] ++ sampleLink "2" :: [])).status = 200 ∧
    ((putLink "2" "T2" minimalBody
      ([sampleLink "1"] ++ sampleLink "2" :: [])).links.map Link.id) =
      ["1", "2"] := by
  obtain ⟨upd, h1, h2, _⟩ := c7_put_updates_in_place "2" "T2" minimalBody
    [sampleLink "1"] (sampleLink "2") [] rfl (by decide) (by decide)
    (by decide)
  rw [h1]
  refine ⟨rfl, ?_⟩
  simp [h2, sampleLink]

/-- C8: `PUT /api/profile` rewrites only the `profile` object:
`adminPasswordHash` and `settings` keep their prior values, and profile
keys not named in the request — `avatarUrl` always, and each of `name`,
`description`, `avatar` when absent from the body — keep theirs. -/
theorem c8_profile_frame (cfg : Config) (n d a : Option String) :
    (putProfile (n, d, a) cfg).adminPasswordHash = cfg.adminPasswordHash ∧
    (putProfile (n, d, a) cfg).settings = cfg.settings ∧
    (putProfile (n, d, a) cfg).profile.avatarUrl = cfg.profile.avatarUrl ∧
    (n = none →
      (putProfile (n, d, a) cfg).profile.name = cfg.profile.name) ∧
    (d = none →
      (putProfile (n, d, a) cfg).profile.description =
        cfg.profile.description) ∧
    (a = none →
      (putProfile (n, d, a) cfg).profile.avatar = cfg.profile.avatar) := by
  refine ⟨rfl, rfl, rfl, ?_, ?_, ?_⟩ <;>
    (intro h; simp [putProfile, truthy, h])

/-- A concrete stored config with an avatar, settings and a hash. -/
def cfgA : Config :=
  { profile := { name := "N", description := "D", avatar := "AV",
                 avatarUrl := some "/uploads/a.png" },
    adminPasswordHash := "H",
    settings := some [("backgroundImageUrl", "/uploads/b.png")] }

/-- C8 witness: renaming the profile of `cfgA` touches nothing else. -/
theorem c8_profile_frame_witness :
    (putProfile (some "New", none, none) cfgA).adminPasswordHash = "H" ∧
    (putProfile (some "New", none, none) cfgA).settings = cfgA.settings ∧
    (putProfile (some "New", none, none) cfgA).profile.avatarUrl =
      some "/uploads/a.png" ∧
    (putProfile (some "New", none, none) cfgA).profile.description = "D" := by
  obtain ⟨h1, h2, h3, _, h5, _⟩ :=
    c8_profile_frame cfgA (some "New") none none
  refine ⟨?_, h2, ?_, ?_⟩
  · rw [h1]; simp [cfgA]
  · rw [h3]; simp [cfgA]
  · rw [h5 rfl]; simp [cfgA]

/-- C9: the public `GET /api/config` response depends only on the stored
profile: configs agreeing on `profile` produce identical responses, no
matter how `adminPasswordHash` or `settings` differ. -/
theorem c9_public_config_no_secrets (c₁ c₂ : Config)
    (h : c₁.profile = c₂.profile) : getConfig c₁ = getConfig c₂ := by
  simp [getConfig, h]

/-- Copy of `cfgA` with a different password hash and no settings. -/
def cfgB : Config := { cfgA with adminPasswordHash := "H2", settings := none }

/-- C9 witness: two stores differing only in secrets give one response. -/
theorem c9_public_config_no_secrets_witness :
    getConfig cfgA = getConfig cfgB ∧
    cfgA.adminPasswordHash ≠ cfgB.adminPasswordHash ∧
    cfgA.settings ≠ cfgB.settings :=
  ⟨c9_public_config_no_secrets cfgA cfgB rfl, by simp [cfgA, cfgB],
    by simp [cfgA, cfgB]⟩

/-- A 72-character password. -/
def pw72 : String := ⟨List.replicate 72 'a'⟩

/-- Extension of `pw72` by one character. -/
def pw73 : String := ⟨List.replicate 72 'a' ++ ['b']⟩

/-- Model of the external bcryptjs `compare` exhibiting its documented
72-byte truncation: only the first 72 characters of the submitted password
are checked against the stored hash.  The digest itself is modelled
injectively (the hash stores the truncated password behind a version tag),
since only the truncation matters for the property at hand. -/
def bcryptTruncCompare (password hash : String) : Bool :=
  ("$2b$" ++ (⟨password.data.take 72⟩ : String)) = hash

/-- A config whose stored hash was derived from `pw72` under
`bcryptTruncCompare`. -/
def cfgTrunc : Config :=
  { profile := default, adminPasswordHash := "$2b$" ++ pw72,
    settings := none }

/-- C2 counterexample: two different passwords authenticate against the
same stored `adminPasswordHash` (bcrypt compares only the first 72 bytes)
yet receive different tokens, so the issued token is not a function of the
stored hash. -/
theorem c2_counterexample :
    (postAuth bcryptTruncCompare base64Encode cfgTrunc
      (some pw72)).status = 200 ∧
    (postAuth bcryptTruncCompare base64Encode cfgTrunc
      (some pw73)).status = 200 ∧
    (postAuth bcryptTruncCompare base64Encode cfgTrunc
        (some pw72)).token? ≠
      (postAuth bcryptTruncCompare base64Encode cfgTrunc
        (some pw73)).token? := by
  refine ⟨rfl, rfl, ?_⟩
  decide

/-- C2 (amended): the bearer token issued by `POST /api/auth` is a
function of the submitted password — the base64 of
`password + 'philcard'` — not of `config.adminPasswordHash`, which only
gates whether a token is issued at all. -/
theorem c2_token_from_password (compare : String → String → Bool)
    (b64enc : String → String) (cfg : Config) (p tok : String)
    (h : postAuth compare b64enc cfg (some p) =
      { status := 200, token? := some tok }) :
    tok = b64enc (p ++ "philcard") :=
  (postAuth_success compare b64enc cfg p tok h).2.2.2

/-- C2 witness: a concrete successful authentication, via the theorem. -/
theorem c2_token_from_password_witness :
    "pwphilcard" = id ("pw" ++ "philcard") :=
  c2_token_from_password (fun _ _ => true) id
    { profile := default, adminPasswordHash := "H", settings := none }
    "pw" "pwphilcard" (by decide)

/-- C10: for a password free of the substring `'philcard'`, splitting the
decoded token at `'philcard'` as `authenticateAdmin` does recovers exactly
the password, so a freshly issued token passes the middleware against the
unchanged stored config; for a password containing `'philcard'`, the
recovered string is a proper prefix of the password.  `b64dec`/`b64enc`
are the external base64 codec, assumed to round-trip. -/
theorem c10_token_round_trip (compare : String → String → Bool)
    (b64enc b64dec : String → String) (cfg : Config) (p tok : String)
    (hrt : ∀ s, b64dec (b64enc s) = s)
    (hauth : postAuth compare b64enc cfg (some p) =
      { status := 200, token? := some tok }) :
    (¬ ("philcard".data <:+: p.data) →
      extractPassword (b64dec tok) = p ∧
      authenticateAdmin compare b64dec cfg
        (some ("Bearer " ++ tok)) = AuthCheck.ok)
    ∧ (("philcard".data <:+: p.data) →
      (extractPassword (b64dec tok)).data <+: p.data ∧
      extractPassword (b64dec tok) ≠ p) := by
  obtain ⟨hp, hh, hcmp, htok⟩ := postAuth_success compare b64enc cfg p tok
    hauth
  have hdec : b64dec tok = p ++ "philcard" := by rw [htok, hrt]
  have hdata : (p ++ "philcard").data = p.data ++ "philcard".data :=
    String.data_append p "philcard"
  constructor
  · intro hni
    have hrec : extractPassword (b64dec tok) = p := by
      rw [hdec]
      unfold extractPassword
      rw [hdata]
      rw [beforeFirst_append_self "philcard".data philcard_borderFree
        (by decide) p.data hni]
    refine ⟨hrec, ?_⟩
    have hsb : stripBearer ("Bearer " ++ tok) = some tok := by
      unfold stripBearer
      rw [String.data_append]
      rw [if_pos ((isPrefixOf_true_iff _ _).mpr
        (List.prefix_append _ _))]
      have hdrop : ("Bearer ".data ++ tok.data).drop 7 = tok.data := by
        have h7 : "Bearer ".data.length = 7 := by decide
        rw [← h7, List.drop_left]
      rw [hdrop]
    simp [authenticateAdmin, hsb, hrec, hh, hcmp]
  · intro hin
    obtain ⟨h1, h2⟩ := beforeFirst_of_contains "philcard".data (by decide)
      p.data "philcard".data hin
    have hbf : (extractPassword (b64dec tok)).data =
        beforeFirst "philcard".data (p.data ++ "philcard".data) := by
      rw [hdec]
      unfold extractPassword
      rw [hdata]
    refine ⟨?_, ?_⟩
    · rw [hbf]
      exact h1
    · intro heq
      have hdeq : (extractPassword (b64dec tok)).data = p.data := by
        rw [heq]
      rw [hbf] at hdeq
      exact absurd (congrArg List.length hdeq) (Nat.ne_of_lt h2)

/-- The compare function of the C10 witness: accepts exactly the pair of
the password `'secret'` and the hash `'H'`. -/
def cmpW : String → String → Bool := fun s h => s == "secret" && h == "H"

/-- The stored config of the C10 witness. -/
def cfgW : Config :=
  { profile := default, adminPasswordHash := "H", settings := none }

/-- C10 witness: the identity codec, the password `'secret'` and its token
round-trip through the middleware, via the theorem. -/
theorem c10_token_round_trip_witness :
    extractPassword (id "secretphilcard") = "secret" ∧
    authenticateAdmin cmpW id cfgW
      (some ("Bearer " ++ "secretphilcard")) = AuthCheck.ok :=
  (c10_token_round_trip cmpW id id cfgW "secret" "secretphilcard"
    (fun _ => rfl) (by decide)).1 (by decide)

end PhilCard
